import Mathlib

set_option maxRecDepth 4000

/-!
Verification development for the BLS HTTP-to-S3 directory synchronization
engine (`rearc_datal_s3_sync.py`).  The Python source is shallowly embedded:
pure helpers become Lean functions, the reconciliation loop becomes a
structural recursion returning the multiset of deleted keys together with a
completion flag, and external effects (HTTP HEAD outcomes, S3 head/tag
fetches, download results) are passed in explicitly as data.  Bytes are
modelled as `Nat`, byte strings as `List Nat`; the MD5 digest itself is an
external primitive (`hashlib`) and is therefore a parameter `d : List Nat →
List Nat` of every definition that hashes, while the hex and base64
encodings applied to the digest are defined concretely below.
-/

namespace RearcSync

/-- Python `s.strip('"')`: remove every leading and trailing `"` character. -/
def stripQuotes (s : String) : String :=
  String.mk (((s.data.dropWhile (fun c => c == '"')).reverse.dropWhile (fun c => c == '"')).reverse)

/-- ASCII lower-casing of one character, as `str.lower()` does on the ASCII
metadata keys involved here. -/
def lowerChar (c : Char) : Char :=
  if 'A' ≤ c ∧ c ≤ 'Z' then Char.ofNat (c.toNat + 32) else c

/-- `s.lower()` over the characters of `s`. -/
def pyLower (s : String) : String :=
  String.mk (s.data.map lowerChar)

/-- `{k.lower(): v for k, v in m.items()}` applied to an association list:
lower-case every key (value collisions are resolved by `pyDictGet`). -/
def lowerKeys (m : List (String × String)) : List (String × String) :=
  m.map (fun p => (pyLower p.1, p.2))

/-- `dict(pairs).get(k)`: a Python dict built from a pair sequence keeps the
last value written for a key, so lookup runs over the reversed list. -/
def pyDictGet (ps : List (String × String)) (k : String) : Option String :=
  ps.reverse.lookup k

/-- Lower-case hexadecimal digit, as produced by `hexdigest()`. -/
def hexChar (n : Nat) : Char :=
  "0123456789abcdef".data.getD n '0'

/-- Two hex characters for one byte. -/
def byteToHex (b : Nat) : List Char :=
  [hexChar (b / 16 % 16), hexChar (b % 16)]

/-- `md5.hexdigest()` given the digest bytes: concatenated per-byte hex. -/
def hexEncode (bs : List Nat) : String :=
  String.mk ((bs.map byteToHex).flatten)

/-- Standard base64 alphabet character. -/
def b64Char (n : Nat) : Char :=
  "ABCDEFGHIJKLMNOPQRSTUVWXYZabcdefghijklmnopqrstuvwxyz0123456789+/".data.getD n 'A'

/-- RFC 4648 base64 of a byte list, with `=` padding — the encoding
`base64.b64encode` applies to `md5.digest()`. -/
def base64Chars : List Nat → List Char
  | [] => []
  | [a] => [b64Char (a / 4 % 64), b64Char (a % 4 * 16), '=', '=']
  | [a, b] => [b64Char (a / 4 % 64), b64Char (a % 4 * 16 + b / 16 % 16), b64Char (b % 16 * 4), '=']
  | a :: b :: c :: rest =>
    [b64Char (a / 4 % 64), b64Char (a % 4 * 16 + b / 16 % 16),
     b64Char (b % 16 * 4 + c / 64 % 4), b64Char (c % 64)] ++ base64Chars rest

/-- `base64.b64encode(...).decode("utf-8")` on a byte list. -/
def base64Encode (bs : List Nat) : String :=
  String.mk (base64Chars bs)

/-- The `for chunk in data_iter` loop of `md5_hexdigest_and_b64`: the state is
(bytes fed to the md5 object so far, running total, accumulated parts);
falsy (empty) chunks are skipped. -/
def md5_loop : List (List Nat) → List Nat × Nat × List (List Nat) → List Nat × Nat × List (List Nat)
  | [], st => st
  | c :: cs, (acc, t, parts) =>
    if c.isEmpty then md5_loop cs (acc, t, parts)
    else md5_loop cs (acc ++ c, t + c.length, parts ++ [c])

/-- `md5_hexdigest_and_b64(data_iter)`: returns
`(md5.hexdigest(), b64encode(md5.digest()), total, b"".join(parts))`.
The incremental `md5.update` calls are modelled by accumulating the hashed
message; `d` is the abstract MD5 digest function supplied by `hashlib`. -/
def md5_hexdigest_and_b64 (d : List Nat → List Nat) (chunks : List (List Nat)) :
    String × String × Nat × List Nat :=
  (hexEncode (d (md5_loop chunks ([], 0, [])).1),
   base64Encode (d (md5_loop chunks ([], 0, [])).1),
   (md5_loop chunks ([], 0, [])).2.1,
   ((md5_loop chunks ([], 0, [])).2.2).flatten)

theorem md5_loop_eq (cs : List (List Nat)) (acc : List Nat) (t : Nat) (parts : List (List Nat)) :
    md5_loop cs (acc, t, parts) =
      (acc ++ (cs.filter (fun c => !c.isEmpty)).flatten,
       t + ((cs.filter (fun c => !c.isEmpty)).flatten).length,
       parts ++ cs.filter (fun c => !c.isEmpty)) := by
  induction cs generalizing acc t parts with
  | nil => simp [md5_loop]
  | cons c cs ih =>
    by_cases hc : c.isEmpty = true
    · have hc' : c = [] := by cases c <;> simp_all [List.isEmpty]
      simp [md5_loop, hc, hc', ih]
    · simp only [md5_loop, if_neg hc]
      rw [ih]
      have hf : List.filter (fun c => !c.isEmpty) (c :: cs) =
          c :: List.filter (fun c => !c.isEmpty) cs := by
        simp [List.filter_cons, hc]
      rw [hf]
      simp [List.append_assoc, Nat.add_assoc, List.flatten_cons, List.length_append]

theorem md5_stream_eq (d : List Nat → List Nat) (chunks : List (List Nat)) :
    md5_hexdigest_and_b64 d chunks =
      (hexEncode (d ((chunks.filter (fun c => !c.isEmpty)).flatten)),
       base64Encode (d ((chunks.filter (fun c => !c.isEmpty)).flatten)),
       ((chunks.filter (fun c => !c.isEmpty)).flatten).length,
       (chunks.filter (fun c => !c.isEmpty)).flatten) := by
  simp [md5_hexdigest_and_b64, md5_loop_eq]

theorem join_filter_not_isEmpty (cs : List (List Nat)) :
    (cs.filter (fun c => !c.isEmpty)).flatten = cs.flatten := by
  induction cs with
  | nil => rfl
  | cons c cs ih =>
    by_cases hc : c.isEmpty = true
    · have hc' : c = [] := by cases c <;> simp_all [List.isEmpty]
      simp [hc', ih]
    · simp [List.filter_cons, hc, ih]

/-- C10: for every finite sequence of byte chunks, the streaming checksum
function returns `(hex, b64, total, payload)` where `payload` is the
concatenation of all chunks (empty chunks skipped), `total` is the length of
`payload`, `hex` is the hex encoding of the MD5 digest of `payload`, and
`b64` is the base64 encoding of the MD5 digest of `payload` (the MD5 digest
itself being the abstract parameter `d`). -/
theorem md5_hexdigest_and_b64_correct (d : List Nat → List Nat) (chunks : List (List Nat)) :
    md5_hexdigest_and_b64 d chunks =
      (hexEncode (d ((chunks.filter (fun c => !c.isEmpty)).flatten)),
       base64Encode (d ((chunks.filter (fun c => !c.isEmpty)).flatten)),
       ((chunks.filter (fun c => !c.isEmpty)).flatten).length,
       (chunks.filter (fun c => !c.isEmpty)).flatten) :=
  md5_stream_eq d chunks

/-- S3 tag key `source` written on every upload. -/
def S3_TAG_SOURCE_KEY : String := "source"

/-- S3 tag value `bls` written on every upload. -/
def S3_TAG_SOURCE_VAL : String := "bls"

/-- S3 tag key `source_url_base` written on every upload. -/
def S3_TAG_URLBASE_KEY : String := "source_url_base"

/-- The observable part of an S3 `head_object` response that
`should_skip_upload` reads: the user metadata dict and the native `ETag`
(`s3_head.get("ETag", "")`, so absent maps to `""`). -/
structure S3Head where
  metadata : List (String × String)
  etag : String
deriving DecidableEq

/-- The `src_meta` dict built in `process_one` and enriched after download;
every `.get(k, "")` access is modelled by a field defaulting to `""`. -/
structure SrcMeta where
  url : String := ""
  last_modified : String := ""
  content_length : String := ""
  etag : String := ""
  base_url : String := ""
  md5 : String := ""
  md5_b64 : String := ""
deriving DecidableEq

/-- `should_skip_upload(s3_head, src_meta)`: `True` means the destination
object is current and the upload is skipped. -/
def should_skip_upload (s3_head : Option S3Head) (src : SrcMeta) : Bool :=
  match s3_head with
  | none => false
  | some h =>
    if src.md5 ≠ "" ∧ pyDictGet (lowerKeys h.metadata) "source_md5" = some src.md5 then
      true
    else if src.content_length ≠ "" ∧
        pyDictGet (lowerKeys h.metadata) "source_length" = some src.content_length ∧
        src.last_modified ≠ "" ∧
        pyDictGet (lowerKeys h.metadata) "source_last_modified" = some src.last_modified then
      true
    else if src.etag ≠ "" ∧
        (pyDictGet (lowerKeys h.metadata) "source_etag" = some src.etag ∨
         stripQuotes h.etag = src.etag) then
      true
    else
      false

/-- The Staleness Oracle as worded by the spec (§4.2 decision order, first
match wins): 1. both checksums exist and are equal; 2. both remote length and
remote last-modified exist and equal the stored values; 3. a remote entity
tag exists and equals the stored entity-tag field or the object's native
entity tag; 4. otherwise not current; absence of the destination record is
always not current.  Written from the spec's words, to be compared with
`should_skip_upload`. -/
def is_current_spec (dest : Option S3Head) (remote : SrcMeta) : Bool :=
  match dest with
  | none => false
  | some h =>
    if remote.md5 ≠ "" ∧ pyDictGet (lowerKeys h.metadata) "source_md5" = some remote.md5 then
      true
    else if remote.content_length ≠ "" ∧ remote.last_modified ≠ "" ∧
        pyDictGet (lowerKeys h.metadata) "source_length" = some remote.content_length ∧
        pyDictGet (lowerKeys h.metadata) "source_last_modified" = some remote.last_modified then
      true
    else if remote.etag ≠ "" ∧
        (pyDictGet (lowerKeys h.metadata) "source_etag" = some remote.etag ∨
         stripQuotes h.etag = remote.etag) then
      true
    else
      false

/-- The arguments `upload_file` passes to `s3.put_object`. -/
structure PutRecord where
  key : String
  body : List Nat
  metadata : List (String × String)
  tagging : String
  contentMD5 : Option String
deriving DecidableEq

/-- `upload_file(s3, bucket, key, content, src_meta)`: the metadata record,
tagging string and optional `ContentMD5` argument of the put. -/
def upload_file (key : String) (content : List Nat) (src : SrcMeta) : PutRecord :=
  { key := key
    body := content
    metadata := [("source_md5", src.md5), ("source_length", src.content_length),
                 ("source_last_modified", src.last_modified), ("source_etag", src.etag),
                 ("source_url", src.url)]
    tagging := S3_TAG_SOURCE_KEY ++ "=" ++ S3_TAG_SOURCE_VAL ++ "&" ++
               S3_TAG_URLBASE_KEY ++ "=" ++ src.base_url
    contentMD5 := if src.md5_b64 ≠ "" then some src.md5_b64 else none }

/-- One remote index entry as produced by `list_http_files`: the value dict
with keys `url`, `last_modified`, `content_length`, `etag`. -/
structure FileInfo where
  url : String
  last_modified : String
  content_length : String
  etag : String
deriving DecidableEq

/-- The initial `src_meta` dict built in `process_one` before download. -/
def src_meta_of (info : FileInfo) (base_url : String) : SrcMeta :=
  { url := info.url
    last_modified := info.last_modified
    content_length := info.content_length
    etag := info.etag
    base_url := base_url }

/-- `src_meta` after the download: `md5`, `md5_b64` and `content_length`
refreshed from the streamed payload. -/
def src_meta_fresh (info : FileInfo) (base_url : String) (d : List Nat → List Nat)
    (chunks : List (List Nat)) : SrcMeta :=
  { src_meta_of info base_url with
    md5 := (md5_hexdigest_and_b64 d chunks).1
    md5_b64 := (md5_hexdigest_and_b64 d chunks).2.1
    content_length := toString (md5_hexdigest_and_b64 d chunks).2.2.1 }

/-- Per-file result of `process_one`: either the upload was skipped, or a put
was issued with the recorded arguments. -/
inductive ProcResult where
  | skipped : ProcResult
  | uploaded : PutRecord → ProcResult
deriving DecidableEq

/-- `process_one(name, info)` of `sync`.  The two `head_s3_object` calls are
the inputs `head1` and `head2` (the destination may change between them);
`dl` is the outcome of `download_with_retries` plus `iter_content` (a
permanent failure re-raises, modelled by `Except.error`); `d` is the MD5
digest primitive. -/
def process_one (head1 head2 : Option S3Head) (name : String) (info : FileInfo)
    (base_url pfx : String) (dl : Except Unit (List (List Nat)))
    (d : List Nat → List Nat) : Except Unit (String × ProcResult) :=
  if should_skip_upload head1 (src_meta_of info base_url) then
    Except.ok (name, ProcResult.skipped)
  else
    match dl with
    | Except.error e => Except.error e
    | Except.ok chunks =>
      if should_skip_upload head2 (src_meta_fresh info base_url d chunks) then
        Except.ok (name, ProcResult.skipped)
      else
        Except.ok (name, ProcResult.uploaded (upload_file (pfx ++ name)
          (md5_hexdigest_and_b64 d chunks).2.2.2 (src_meta_fresh info base_url d chunks)))

/-- C2: the staleness decision applies its identity checks in the spec's
priority order with first match winning — the code's `should_skip_upload`
coincides with the spec-worded decision procedure `is_current_spec` on every
destination head record and every remote metadata record (in particular a
checksum match yields skip regardless of the other fields, length and
last-modified are only consulted together, the entity-tag check is last, and
an absent destination record always yields transfer). -/
theorem should_skip_upload_eq_spec (dest : Option S3Head) (remote : SrcMeta) :
    should_skip_upload dest remote = is_current_spec dest remote := by
  cases dest with
  | none => rfl
  | some h =>
    simp only [should_skip_upload, is_current_spec]
    refine if_congr Iff.rfl rfl (if_congr ?_ rfl rfl)
    constructor
    · rintro ⟨h1, h2, h3, h4⟩; exact ⟨h1, h3, h2, h4⟩
    · rintro ⟨h1, h2, h3, h4⟩; exact ⟨h1, h3, h2, h4⟩

/-- C9: a remote entry whose checksum, last-modified, content-length and
entity-tag metadata are all empty strings is never judged current — the
staleness decision returns transfer for every destination head record. -/
theorem empty_metadata_forces_transfer (head : Option S3Head) (src : SrcMeta)
    (hmd5 : src.md5 = "") (hlm : src.last_modified = "")
    (hcl : src.content_length = "") (het : src.etag = "") :
    should_skip_upload head src = false := by
  cases head with
  | none => rfl
  | some h => simp [should_skip_upload, hmd5, hlm, hcl, het]

theorem empty_metadata_forces_transfer_witness :
    ({ url := "u" } : SrcMeta).md5 = "" ∧
    should_skip_upload (some ⟨[("source_md5", "")], ""⟩) { url := "u" } = false :=
  ⟨rfl, empty_metadata_forces_transfer (some ⟨[("source_md5", "")], ""⟩) { url := "u" }
    rfl rfl rfl rfl⟩

/-- C8: for a file judged stale at the first check, `process_one` re-runs the
staleness decision against the freshly fetched destination metadata `head2`
using the freshly computed checksum and byte count (`src_meta_fresh`); if
that second check reports current, the task returns skipped and issues no
put for that file. -/
theorem second_check_skips_upload (head1 head2 : Option S3Head) (name : String)
    (info : FileInfo) (base_url pfx : String) (chunks : List (List Nat))
    (d : List Nat → List Nat)
    (h1 : should_skip_upload head1 (src_meta_of info base_url) = false)
    (h2 : should_skip_upload head2 (src_meta_fresh info base_url d chunks) = true) :
    process_one head1 head2 name info base_url pfx (Except.ok chunks) d =
      Except.ok (name, ProcResult.skipped) := by
  simp [process_one, h1, h2]

theorem second_check_skips_upload_witness :
    should_skip_upload none (src_meta_of ⟨"u", "", "", ""⟩ "b") = false ∧
    should_skip_upload (some ⟨[("source_md5", "00")], ""⟩)
      (src_meta_fresh ⟨"u", "", "", ""⟩ "b" (fun _ => [0]) [[1]]) = true ∧
    process_one none (some ⟨[("source_md5", "00")], ""⟩) "n" ⟨"u", "", "", ""⟩ "b" "p/"
      (Except.ok [[1]]) (fun _ => [0]) = Except.ok ("n", ProcResult.skipped) :=
  ⟨by decide, by decide,
   second_check_skips_upload none (some ⟨[("source_md5", "00")], ""⟩) "n" ⟨"u", "", "", ""⟩
     "b" "p/" [[1]] (fun _ => [0]) (by decide) (by decide)⟩

theorem should_skip_none (src : SrcMeta) : should_skip_upload none src = false := rfl

theorem hexEncode_ne_empty (bs : List Nat) (h : bs ≠ []) : hexEncode bs ≠ "" := by
  cases bs with
  | nil => exact absurd rfl h
  | cons b tl =>
    intro he
    have hd := congrArg String.data he
    simp [hexEncode, byteToHex] at hd

theorem pyDictGet_upload_md5 (v1 v2 v3 v4 v5 : String) :
    pyDictGet (lowerKeys [("source_md5", v1), ("source_length", v2),
      ("source_last_modified", v3), ("source_etag", v4), ("source_url", v5)])
      "source_md5" = some v1 := rfl

/-- C3: running a pass twice against an unchanged remote produces zero
uploads the second time — if the first pass of `process_one` on an absent
destination object uploads the payload with its provenance metadata record,
then a second pass that heads that stored record (with any native entity
tag), against the same remote entry and payload, resolves to skipped.  The
only assumption is that the MD5 digest of the payload is nonempty, which
holds of the real 16-byte MD5 digest. -/
theorem sync_idempotent_second_pass (d : List Nat → List Nat) (info : FileInfo)
    (chunks : List (List Nat)) (name base_url pfx s3etag : String)
    (hne : d chunks.flatten ≠ []) :
    ∃ put : PutRecord,
      process_one none none name info base_url pfx (Except.ok chunks) d =
        Except.ok (name, ProcResult.uploaded put) ∧
      process_one (some ⟨put.metadata, s3etag⟩) (some ⟨put.metadata, s3etag⟩) name info
        base_url pfx (Except.ok chunks) d = Except.ok (name, ProcResult.skipped) := by
  refine ⟨upload_file (pfx ++ name) (md5_hexdigest_and_b64 d chunks).2.2.2
    (src_meta_fresh info base_url d chunks), ?_, ?_⟩
  · simp [process_one, should_skip_none]
  · have hmd5 : (src_meta_fresh info base_url d chunks).md5 =
        hexEncode (d chunks.flatten) := by
      simp [src_meta_fresh, md5_stream_eq, join_filter_not_isEmpty]
    have hne' : (src_meta_fresh info base_url d chunks).md5 ≠ "" := by
      rw [hmd5]; exact hexEncode_ne_empty _ hne
    have hskip : should_skip_upload
        (some ⟨(upload_file (pfx ++ name) (md5_hexdigest_and_b64 d chunks).2.2.2
          (src_meta_fresh info base_url d chunks)).metadata, s3etag⟩)
        (src_meta_fresh info base_url d chunks) = true := by
      simp only [should_skip_upload, upload_file]
      rw [if_pos]
      exact ⟨hne', pyDictGet_upload_md5 _ _ _ _ _⟩
    by_cases hfirst : should_skip_upload
        (some ⟨(upload_file (pfx ++ name) (md5_hexdigest_and_b64 d chunks).2.2.2
          (src_meta_fresh info base_url d chunks)).metadata, s3etag⟩)
        (src_meta_of info base_url) = true
    · simp [process_one, hfirst]
    · rw [Bool.not_eq_true] at hfirst
      simp [process_one, hfirst, hskip]

theorem sync_idempotent_second_pass_witness :
    (fun _ => [0] : List Nat → List Nat) ([[1], [2]] : List (List Nat)).flatten ≠ [] ∧
    ∃ put : PutRecord,
      process_one none none "n" ⟨"u", "L", "2", "E"⟩ "b/" "p/" (Except.ok [[1], [2]])
        (fun _ => [0]) = Except.ok ("n", ProcResult.uploaded put) ∧
      process_one (some ⟨put.metadata, "x"⟩) (some ⟨put.metadata, "x"⟩) "n"
        ⟨"u", "L", "2", "E"⟩ "b/" "p/" (Except.ok [[1], [2]]) (fun _ => [0]) =
        Except.ok ("n", ProcResult.skipped) :=
  ⟨by decide, sync_idempotent_second_pass (fun _ => [0]) ⟨"u", "L", "2", "E"⟩ [[1], [2]]
    "n" "b/" "p/" "x" (by decide)⟩

/-- One destination object as observed while paginating `list_objects_v2`:
its key, the outcome of `get_object_tagging` (`none` models a `ClientError`),
and whether `delete_object` on it would raise. -/
structure DestObject where
  key : String
  tagFetch : Option (List (String × String))
  deleteFails : Bool
deriving DecidableEq

/-- `get_s3_tags(s3, bucket, key)`: the tag dict, or `{}` when the tag fetch
raises a `ClientError`. -/
def get_s3_tags (o : DestObject) : List (String × String) :=
  o.tagFetch.getD []

/-- `key[len(prefix):] if key.startswith(prefix) else key`. -/
def strippedName (pfx key : String) : String :=
  if pfx.data.isPrefixOf key.data then String.mk (key.data.drop pfx.data.length) else key

/-- `delete_removed_objects(s3, bucket, prefix, present_names, base_url)`
over the flattened pagination: returns the keys deleted in order together
with `true` when the loop ran to completion; a raising `delete_object`
propagates out of the loop, modelled by stopping with `false` (deletions
already performed are kept in the list). -/
def delete_removed_objects (pfx base_url : String) (present_names : List String) :
    List DestObject → List String × Bool
  | [] => ([], true)
  | o :: rest =>
    if strippedName pfx o.key ∈ present_names then
      delete_removed_objects pfx base_url present_names rest
    else if pyDictGet (get_s3_tags o) S3_TAG_SOURCE_KEY = some S3_TAG_SOURCE_VAL ∧
        pyDictGet (get_s3_tags o) S3_TAG_URLBASE_KEY = some base_url then
      if o.deleteFails then ([], false)
      else
        ((delete_removed_objects pfx base_url present_names rest).1.cons o.key,
         (delete_removed_objects pfx base_url present_names rest).2)
    else
      delete_removed_objects pfx base_url present_names rest

theorem mem_deleted_keys (pfx base_url : String) (present : List String)
    (objs : List DestObject) (k : String)
    (hk : k ∈ (delete_removed_objects pfx base_url present objs).1) :
    ∃ o, o ∈ objs ∧ o.key = k ∧ strippedName pfx o.key ∉ present ∧
      pyDictGet (get_s3_tags o) S3_TAG_SOURCE_KEY = some S3_TAG_SOURCE_VAL ∧
      pyDictGet (get_s3_tags o) S3_TAG_URLBASE_KEY = some base_url := by
  induction objs with
  | nil => simp [delete_removed_objects] at hk
  | cons o rest ih =>
    by_cases hpres : strippedName pfx o.key ∈ present
    · rw [delete_removed_objects, if_pos hpres] at hk
      obtain ⟨o', h1, h2, h3, h4, h5⟩ := ih hk
      exact ⟨o', List.mem_cons_of_mem _ h1, h2, h3, h4, h5⟩
    · by_cases htags : pyDictGet (get_s3_tags o) S3_TAG_SOURCE_KEY = some S3_TAG_SOURCE_VAL ∧
          pyDictGet (get_s3_tags o) S3_TAG_URLBASE_KEY = some base_url
      · rw [delete_removed_objects, if_neg hpres, if_pos htags] at hk
        by_cases hdel : o.deleteFails
        · rw [if_pos hdel] at hk
          simp at hk
        · rw [if_neg hdel] at hk
          rcases List.mem_cons.mp hk with hko | hkrest
          · exact ⟨o, List.mem_cons_self _ _, hko.symm, hpres, htags.1, htags.2⟩
          · obtain ⟨o', h1, h2, h3, h4, h5⟩ := ih hkrest
            exact ⟨o', List.mem_cons_of_mem _ h1, h2, h3, h4, h5⟩
      · rw [delete_removed_objects, if_neg hpres, if_neg htags] at hk
        obtain ⟨o', h1, h2, h3, h4, h5⟩ := ih hk
        exact ⟨o', List.mem_cons_of_mem _ h1, h2, h3, h4, h5⟩

/-- C1: a deletion-enabled pass never deletes a destination object that does
not carry both provenance tags (`source = bls` and `source_url_base` equal to
the pass's base URL), regardless of whether its name appears in the current
remote listing (`present` is arbitrary) and regardless of whether the loop
ran to completion. -/
theorem deletion_safety (pfx base_url : String) (present : List String)
    (objs : List DestObject) (o : DestObject) (ho : o ∈ objs)
    (hnodup : (objs.map DestObject.key).Nodup)
    (htags : ¬(pyDictGet (get_s3_tags o) S3_TAG_SOURCE_KEY = some S3_TAG_SOURCE_VAL ∧
               pyDictGet (get_s3_tags o) S3_TAG_URLBASE_KEY = some base_url)) :
    o.key ∉ (delete_removed_objects pfx base_url present objs).1 := by
  intro hk
  obtain ⟨o', h1, h2, _, h4, h5⟩ := mem_deleted_keys pfx base_url present objs o.key hk
  have : o' = o := List.inj_on_of_nodup_map hnodup h1 ho h2
  subst this
  exact htags ⟨h4, h5⟩

theorem deletion_safety_witness :
    (⟨"p/x", some [("source", "other")], false⟩ : DestObject) ∈
      [(⟨"p/x", some [("source", "other")], false⟩ : DestObject)] ∧
    "p/x" ∉ (delete_removed_objects "p/" "b/" []
      [(⟨"p/x", some [("source", "other")], false⟩ : DestObject)]).1 :=
  ⟨by decide,
   deletion_safety "p/" "b/" [] [⟨"p/x", some [("source", "other")], false⟩]
     ⟨"p/x", some [("source", "other")], false⟩ (by decide) (by decide) (by decide)⟩

theorem deleted_of_completed (pfx base_url : String) (present : List String)
    (objs : List DestObject) (o : DestObject) (ho : o ∈ objs)
    (hdone : (delete_removed_objects pfx base_url present objs).2 = true)
    (h1 : pyDictGet (get_s3_tags o) S3_TAG_SOURCE_KEY = some S3_TAG_SOURCE_VAL)
    (h2 : pyDictGet (get_s3_tags o) S3_TAG_URLBASE_KEY = some base_url)
    (habs : strippedName pfx o.key ∉ present) :
    o.key ∈ (delete_removed_objects pfx base_url present objs).1 := by
  induction objs with
  | nil => simp at ho
  | cons a rest ih =>
    rcases List.mem_cons.mp ho with hoa | horest
    · subst hoa
      rw [delete_removed_objects, if_neg habs, if_pos ⟨h1, h2⟩]
      rw [delete_removed_objects, if_neg habs, if_pos ⟨h1, h2⟩] at hdone
      by_cases hdel : o.deleteFails
      · rw [if_pos hdel] at hdone
        simp at hdone
      · rw [if_neg hdel]
        exact List.mem_cons_self _ _
    · by_cases hpres : strippedName pfx a.key ∈ present
      · rw [delete_removed_objects, if_pos hpres] at hdone ⊢
        exact ih horest hdone
      · by_cases htags : pyDictGet (get_s3_tags a) S3_TAG_SOURCE_KEY = some S3_TAG_SOURCE_VAL ∧
            pyDictGet (get_s3_tags a) S3_TAG_URLBASE_KEY = some base_url
        · rw [delete_removed_objects, if_neg hpres, if_pos htags] at hdone ⊢
          by_cases hdel : a.deleteFails
          · rw [if_pos hdel] at hdone
            simp at hdone
          · rw [if_neg hdel] at hdone ⊢
            exact List.mem_cons_of_mem _ (ih horest hdone)
        · rw [delete_removed_objects, if_neg hpres, if_neg htags] at hdone ⊢
          exact ih horest hdone

/-- C4: in a deletion-enabled pass whose reconciliation loop runs to
completion, every destination object carrying both matching provenance tags
is deleted exactly when its name (key with the prefix stripped) is absent
from the current remote listing, and retained when its name is present. -/
theorem reconciliation_correct (pfx base_url : String) (present : List String)
    (objs : List DestObject) (o : DestObject) (ho : o ∈ objs)
    (hnodup : (objs.map DestObject.key).Nodup)
    (hdone : (delete_removed_objects pfx base_url present objs).2 = true)
    (h1 : pyDictGet (get_s3_tags o) S3_TAG_SOURCE_KEY = some S3_TAG_SOURCE_VAL)
    (h2 : pyDictGet (get_s3_tags o) S3_TAG_URLBASE_KEY = some base_url) :
    (strippedName pfx o.key ∉ present →
      o.key ∈ (delete_removed_objects pfx base_url present objs).1) ∧
    (strippedName pfx o.key ∈ present →
      o.key ∉ (delete_removed_objects pfx base_url present objs).1) := by
  constructor
  · intro habs
    exact deleted_of_completed pfx base_url present objs o ho hdone h1 h2 habs
  · intro hpres hk
    obtain ⟨o', g1, g2, g3, _, _⟩ := mem_deleted_keys pfx base_url present objs o.key hk
    have : o' = o := List.inj_on_of_nodup_map hnodup g1 ho g2
    subst this
    exact g3 hpres

theorem reconciliation_correct_witness :
    (⟨"p/x", some [("source", "bls"), ("source_url_base", "b/")], false⟩ : DestObject) ∈
      [(⟨"p/x", some [("source", "bls"), ("source_url_base", "b/")], false⟩ : DestObject)] ∧
    "p/x" ∈ (delete_removed_objects "p/" "b/" []
      [(⟨"p/x", some [("source", "bls"), ("source_url_base", "b/")], false⟩ : DestObject)]).1 :=
  ⟨by decide,
   (reconciliation_correct "p/" "b/" []
     [⟨"p/x", some [("source", "bls"), ("source_url_base", "b/")], false⟩]
     ⟨"p/x", some [("source", "bls"), ("source_url_base", "b/")], false⟩
     (by decide) (by decide) (by decide) (by decide) (by decide)).1 (by decide)⟩

/-- C7 as stated is false on the code: `get_s3_tags` swallows a tag-fetch
`ClientError`, but `s3.delete_object` at the end of the reconciliation loop
is not wrapped in any try/except, so a delete failure propagates and aborts
the loop.  Concretely, with two tagged removed objects where the first
delete raises, the loop stops (`false`) and the second eligible object
`p/y` is never deleted. -/
theorem reconciliation_delete_failure_aborts :
    delete_removed_objects "p/" "b/" []
      [⟨"p/x", some [("source", "bls"), ("source_url_base", "b/")], true⟩,
       ⟨"p/y", some [("source", "bls"), ("source_url_base", "b/")], false⟩] = ([], false) ∧
    "p/y" ∉ (delete_removed_objects "p/" "b/" []
      [⟨"p/x", some [("source", "bls"), ("source_url_base", "b/")], true⟩,
       ⟨"p/y", some [("source", "bls"), ("source_url_base", "b/")], false⟩]).1 := by
  constructor
  · rfl
  · decide

/-- C7 amended: a tag-fetch failure for one destination object yields empty
tags, so that object is skipped and reconciliation continues unchanged over
the remaining objects; a delete failure, by contrast, propagates and aborts
the reconciliation loop (the completion flag is `false` whenever some
eligible object's delete raises). -/
theorem reconciliation_failure_semantics :
    (∀ (pfx base_url : String) (present : List String) (pre post : List DestObject)
      (o : DestObject), o.tagFetch = none →
      delete_removed_objects pfx base_url present (pre ++ o :: post) =
        delete_removed_objects pfx base_url present (pre ++ post)) ∧
    (∀ (pfx base_url : String) (present : List String) (objs : List DestObject),
      (∃ o, o ∈ objs ∧ strippedName pfx o.key ∉ present ∧
        pyDictGet (get_s3_tags o) S3_TAG_SOURCE_KEY = some S3_TAG_SOURCE_VAL ∧
        pyDictGet (get_s3_tags o) S3_TAG_URLBASE_KEY = some base_url ∧
        o.deleteFails = true) →
      (delete_removed_objects pfx base_url present objs).2 = false) := by
  constructor
  · intro pfx base_url present pre post o hfetch
    have hstep : ∀ rest, delete_removed_objects pfx base_url present (o :: rest) =
        delete_removed_objects pfx base_url present rest := by
      intro rest
      by_cases hpres : strippedName pfx o.key ∈ present
      · rw [delete_removed_objects, if_pos hpres]
      · rw [delete_removed_objects, if_neg hpres, if_neg]
        rw [not_and]
        intro hsrc
        rw [get_s3_tags, hfetch] at hsrc
        simp [pyDictGet] at hsrc
    induction pre with
    | nil => simpa using hstep post
    | cons a pre ih =>
      by_cases hpres : strippedName pfx a.key ∈ present
      · simp only [List.cons_append]
        rw [delete_removed_objects, if_pos hpres, delete_removed_objects, if_pos hpres]
        exact ih
      · by_cases htags : pyDictGet (get_s3_tags a) S3_TAG_SOURCE_KEY = some S3_TAG_SOURCE_VAL ∧
            pyDictGet (get_s3_tags a) S3_TAG_URLBASE_KEY = some base_url
        · simp only [List.cons_append]
          rw [delete_removed_objects, if_neg hpres, if_pos htags,
              delete_removed_objects, if_neg hpres, if_pos htags]
          by_cases hdel : a.deleteFails
          · rw [if_pos hdel, if_pos hdel]
          · rw [if_neg hdel, if_neg hdel, ih]
        · simp only [List.cons_append]
          rw [delete_removed_objects, if_neg hpres, if_neg htags,
              delete_removed_objects, if_neg hpres, if_neg htags]
          exact ih
  · intro pfx base_url present objs hex
    induction objs with
    | nil => simp at hex
    | cons a rest ih =>
      obtain ⟨o, ho, habs, h1, h2, hdel⟩ := hex
      rcases List.mem_cons.mp ho with hoa | horest
      · subst hoa
        rw [delete_removed_objects, if_neg habs, if_pos ⟨h1, h2⟩, if_pos hdel]
      · by_cases hpres : strippedName pfx a.key ∈ present
        · rw [delete_removed_objects, if_pos hpres]
          exact ih ⟨o, horest, habs, h1, h2, hdel⟩
        · by_cases htags : pyDictGet (get_s3_tags a) S3_TAG_SOURCE_KEY = some S3_TAG_SOURCE_VAL ∧
              pyDictGet (get_s3_tags a) S3_TAG_URLBASE_KEY = some base_url
          · rw [delete_removed_objects, if_neg hpres, if_pos htags]
            by_cases hadel : a.deleteFails
            · rw [if_pos hadel]
            · rw [if_neg hadel]
              simp only []
              exact ih ⟨o, horest, habs, h1, h2, hdel⟩
          · rw [delete_removed_objects, if_neg hpres, if_neg htags]
            exact ih ⟨o, horest, habs, h1, h2, hdel⟩

theorem reconciliation_failure_semantics_witness :
    ((⟨"p/z", none, false⟩ : DestObject).tagFetch = none ∧
      delete_removed_objects "p/" "b/" [] ([] ++ (⟨"p/z", none, false⟩ : DestObject) ::
        [(⟨"p/w", some [("source", "bls"), ("source_url_base", "b/")], false⟩ : DestObject)]) =
      delete_removed_objects "p/" "b/" ([])
        ([] ++ [(⟨"p/w", some [("source", "bls"), ("source_url_base", "b/")], false⟩ : DestObject)])) ∧
    (delete_removed_objects "p/" "b/" []
      [(⟨"p/v", some [("source", "bls"), ("source_url_base", "b/")], true⟩ : DestObject)]).2 = false :=
  ⟨⟨rfl, reconciliation_failure_semantics.1 "p/" "b/" [] []
      [⟨"p/w", some [("source", "bls"), ("source_url_base", "b/")], false⟩]
      ⟨"p/z", none, false⟩ rfl⟩,
   reconciliation_failure_semantics.2 "p/" "b/" []
     [⟨"p/v", some [("source", "bls"), ("source_url_base", "b/")], true⟩]
     ⟨⟨"p/v", some [("source", "bls"), ("source_url_base", "b/")], true⟩,
      by decide, by decide, by decide, by decide, rfl⟩⟩

/-- Outcome of the per-candidate HEAD request in `list_http_files`: either
`requests.RequestException` was raised, or a response arrived with `hr.ok`
status and the `Last-Modified`, `Content-Length` and raw `ETag` header
values (each already defaulted to `""` when the header is absent). -/
inductive HeadOutcome where
  | exn : HeadOutcome
  | resp : Bool → String → String → String → HeadOutcome
deriving DecidableEq

/-- `href.split("/")[-1]`. -/
def lastComponent (href : String) : String :=
  String.mk ((href.data.splitOn '/').getLastD [])

/-- `href.endswith("/")` and friends, over the character list. -/
def strEndsWith (s suf : String) : Bool :=
  suf.data.isSuffixOf s.data

/-- `files[name] = value` on a Python dict kept as an insertion-ordered
association list: overwrite in place if the key exists, else append. -/
def dictInsert (m : List (String × FileInfo)) (k : String) (v : FileInfo) :
    List (String × FileInfo) :=
  if m.any (fun p => p.1 == k) then
    m.map (fun p => if p.1 == k then (k, v) else p)
  else m ++ [(k, v)]

/-- Body of the `for a in links` loop of `list_http_files` for one anchor's
href attribute (`none` models an anchor without href): skip empty, parent
and directory links, resolve the URL (`urljoin` is the external resolver),
HEAD it, drop the entry if the HEAD raised, degrade its metadata to empty
strings if the HEAD response was not ok. -/
def list_step (base_url : String) (urljoin : String → String → String)
    (head : String → HeadOutcome) (files : List (String × FileInfo))
    (href? : Option String) : List (String × FileInfo) :=
  match href? with
  | none => files
  | some href =>
    if href = "" ∨ href = "../" ∨ href = "./" ∨ strEndsWith href "/" = true then files
    else
      match head (urljoin base_url href) with
      | HeadOutcome.exn => files
      | HeadOutcome.resp ok lm cl et =>
        dictInsert files (lastComponent href)
          (if ok then ⟨urljoin base_url href, lm, cl, stripQuotes et⟩
           else ⟨urljoin base_url href, "", "", ""⟩)

/-- `list_http_files(base_url)` after a successful index fetch, given the
hrefs of the parsed anchors in document order. -/
def list_http_files (base_url : String) (urljoin : String → String → String)
    (head : String → HeadOutcome) (hrefs : List (Option String)) :
    List (String × FileInfo) :=
  hrefs.foldl (list_step base_url urljoin head) []

/-- C5 as stated is false on the code: a HEAD request that raises is handled
by `continue`, which drops the candidate from the listing instead of
returning it with degraded metadata.  Concretely, with two candidates where
the HEAD for `b.txt` raises, the listing completes but contains only
`a.txt`; the entry for `b.txt` is not returned at all. -/
theorem head_exception_drops_entry :
    (fun u => if u = "http://x/b.txt" then HeadOutcome.exn
              else HeadOutcome.resp true "L" "5" "E") "http://x/b.txt" = HeadOutcome.exn ∧
    list_http_files "http://x/" (fun b h => b ++ h)
      (fun u => if u = "http://x/b.txt" then HeadOutcome.exn
                else HeadOutcome.resp true "L" "5" "E")
      [some "a.txt", some "b.txt"] =
      [("a.txt", ⟨"http://x/a.txt", "L", "5", "E"⟩)] := by
  constructor
  · decide
  · decide

/-- C5 amended: a HEAD failure for one candidate never aborts the listing,
but the two failure modes differ — a HEAD that raises a transport exception
drops that candidate from the listing while leaving the processing of every
other anchor unchanged, whereas a HEAD response with a non-success status
keeps the entry with its last-modified, content-length and entity-tag
metadata degraded to empty strings. -/
theorem head_failure_handling :
    (∀ (base_url : String) (urljoin : String → String → String)
      (head : String → HeadOutcome) (pre post : List (Option String)) (href : String),
      ¬(href = "" ∨ href = "../" ∨ href = "./" ∨ strEndsWith href "/" = true) →
      head (urljoin base_url href) = HeadOutcome.exn →
      list_http_files base_url urljoin head (pre ++ some href :: post) =
        list_http_files base_url urljoin head (pre ++ post)) ∧
    (∀ (base_url : String) (urljoin : String → String → String)
      (head : String → HeadOutcome) (href : String) (lm cl et : String),
      ¬(href = "" ∨ href = "../" ∨ href = "./" ∨ strEndsWith href "/" = true) →
      head (urljoin base_url href) = HeadOutcome.resp false lm cl et →
      list_http_files base_url urljoin head [some href] =
        [(lastComponent href, ⟨urljoin base_url href, "", "", ""⟩)]) := by
  constructor
  · intro base_url urljoin head pre post href hskip hexn
    have hstep : ∀ files, list_step base_url urljoin head files (some href) = files := by
      intro files
      rw [list_step]
      rw [if_neg hskip, hexn]
    unfold list_http_files
    rw [List.foldl_append, List.foldl_append, List.foldl_cons, hstep]
  · intro base_url urljoin head href lm cl et hskip hresp
    unfold list_http_files
    rw [List.foldl_cons, List.foldl_nil, list_step]
    rw [if_neg hskip, hresp]
    rfl

theorem head_failure_handling_witness :
    (¬("c.txt" = "" ∨ "c.txt" = "../" ∨ "c.txt" = "./" ∨ strEndsWith "c.txt" "/" = true) ∧
      list_http_files "h/" (fun b h => b ++ h)
        (fun u => if u = "h/c.txt" then HeadOutcome.exn else HeadOutcome.resp true "L" "5" "E")
        ([some "a.txt"] ++ some "c.txt" :: [some "b.txt"]) =
      list_http_files "h/" (fun b h => b ++ h)
        (fun u => if u = "h/c.txt" then HeadOutcome.exn else HeadOutcome.resp true "L" "5" "E")
        ([some "a.txt"] ++ [some "b.txt"])) ∧
    list_http_files "h/" (fun b h => b ++ h) (fun _ => HeadOutcome.resp false "L" "5" "E")
      [some "c.txt"] = [("c.txt", ⟨"h/c.txt", "", "", ""⟩)] :=
  ⟨⟨by decide,
    head_failure_handling.1 "h/" (fun b h => b ++ h)
      (fun u => if u = "h/c.txt" then HeadOutcome.exn else HeadOutcome.resp true "L" "5" "E")
      [some "a.txt"] [some "b.txt"] "c.txt" (by decide) (by decide)⟩,
   head_failure_handling.2 "h/" (fun b h => b ++ h) (fun _ => HeadOutcome.resp false "L" "5" "E")
     "c.txt" "L" "5" "E" (by decide) rfl⟩

/-- Per-file bookkeeping of the `as_completed` loop in `sync`: each future
either returned `(fname, status)` or raised; a raising future is logged
(`Failed processing ...`) and skipped; returned names are appended to
`results[status]`.  The triple is (uploaded names, skipped names, names
whose failure was logged), each in completion order. -/
def collect_results : List (String × Except Unit (String × ProcResult)) →
    List String × List String × List String
  | [] => ([], [], [])
  | (name, Except.error _) :: rest =>
    ((collect_results rest).1, (collect_results rest).2.1, name :: (collect_results rest).2.2)
  | (_, Except.ok (fname, ProcResult.skipped)) :: rest =>
    ((collect_results rest).1, fname :: (collect_results rest).2.1, (collect_results rest).2.2)
  | (_, Except.ok (fname, ProcResult.uploaded _)) :: rest =>
    (fname :: (collect_results rest).1, (collect_results rest).2.1, (collect_results rest).2.2)

/-- Number of per-file tasks that raised. -/
def failed_count (outs : List (String × Except Unit (String × ProcResult))) : Nat :=
  (outs.filter (fun p => match p.2 with
    | Except.error _ => true
    | Except.ok _ => false)).length

/-- The final summary logged at the end of `sync` (line 213): it reports
exactly the two counts `len(results["uploaded"])` and
`len(results["skipped"])`; `results` has no failure category. -/
def sync_summary (outs : List (String × Except Unit (String × ProcResult))) : Nat × Nat :=
  ((collect_results outs).1.length, (collect_results outs).2.1.length)

/-- Process-level result of `main`: `sync` returning normally, a keyboard
interrupt, or an `EndpointConnectionError`; the exit status of each. -/
inductive SyncRunResult where
  | completed : SyncRunResult
  | interrupted : SyncRunResult
  | endpointFailure : SyncRunResult
deriving DecidableEq

/-- Exit status of `main`: normal completion falls off the end (exit 0),
`KeyboardInterrupt` exits 130, `EndpointConnectionError` exits 1. -/
def main_exit_code : SyncRunResult → Nat
  | SyncRunResult.completed => 0
  | SyncRunResult.interrupted => 130
  | SyncRunResult.endpointFailure => 1

theorem failed_count_cons_error (name : String)
    (rest : List (String × Except Unit (String × ProcResult))) :
    failed_count ((name, Except.error ()) :: rest) = failed_count rest + 1 := by
  simp [failed_count, List.filter_cons]

theorem failed_count_cons_ok (name : String) (v : String × ProcResult)
    (rest : List (String × Except Unit (String × ProcResult))) :
    failed_count ((name, Except.ok v) :: rest) = failed_count rest := by
  simp [failed_count, List.filter_cons]

theorem collect_lengths (outs : List (String × Except Unit (String × ProcResult))) :
    (collect_results outs).1.length + (collect_results outs).2.1.length +
      (collect_results outs).2.2.length = outs.length ∧
    (collect_results outs).2.2.length = failed_count outs := by
  induction outs with
  | nil => simp [collect_results, failed_count]
  | cons p rest ih =>
    obtain ⟨name, r⟩ := p
    cases r with
    | error e =>
      cases e
      have h1 := ih.1
      have h2 := ih.2
      rw [failed_count_cons_error]
      simp only [collect_results, List.length_cons]
      constructor
      · simpa using by omega
      · simpa using by omega
    | ok v =>
      obtain ⟨fname, pr⟩ := v
      have h1 := ih.1
      have h2 := ih.2
      rw [failed_count_cons_ok]
      cases pr with
      | skipped =>
        simp only [collect_results, List.length_cons]
        constructor
        · simpa using by omega
        · exact h2
      | uploaded put =>
        simp only [collect_results, List.length_cons]
        constructor
        · simpa using by omega
        · exact h2

/-- C6 as stated is false on the code: `results` holds only the categories
`uploaded` and `skipped`, and the final summary line prints only those two
counts, so the single permanent failure is not reported in the final summary
counts at all.  Concretely, for five files of which exactly one (`"e"`)
fails, the final summary is `(2, 2)`: neither summary count equals the 1
failure and the failed name appears in neither summary category — the
failure is visible only in the per-file error log. -/
theorem failure_missing_from_summary :
    failed_count [("a", Except.ok ("a", ProcResult.uploaded ⟨"k", [], [], "", none⟩)),
      ("b", Except.ok ("b", ProcResult.uploaded ⟨"l", [], [], "", none⟩)),
      ("c", Except.ok ("c", ProcResult.skipped)), ("d", Except.ok ("d", ProcResult.skipped)),
      ("e", Except.error ())] = 1 ∧
    sync_summary [("a", Except.ok ("a", ProcResult.uploaded ⟨"k", [], [], "", none⟩)),
      ("b", Except.ok ("b", ProcResult.uploaded ⟨"l", [], [], "", none⟩)),
      ("c", Except.ok ("c", ProcResult.skipped)), ("d", Except.ok ("d", ProcResult.skipped)),
      ("e", Except.error ())] = (2, 2) ∧
    (sync_summary [("a", Except.ok ("a", ProcResult.uploaded ⟨"k", [], [], "", none⟩)),
      ("b", Except.ok ("b", ProcResult.uploaded ⟨"l", [], [], "", none⟩)),
      ("c", Except.ok ("c", ProcResult.skipped)), ("d", Except.ok ("d", ProcResult.skipped)),
      ("e", Except.error ())]).1 ≠ 1 ∧
    (sync_summary [("a", Except.ok ("a", ProcResult.uploaded ⟨"k", [], [], "", none⟩)),
      ("b", Except.ok ("b", ProcResult.uploaded ⟨"l", [], [], "", none⟩)),
      ("c", Except.ok ("c", ProcResult.skipped)), ("d", Except.ok ("d", ProcResult.skipped)),
      ("e", Except.error ())]).2 ≠ 1 ∧
    "e" ∉ (collect_results [("a", Except.ok ("a", ProcResult.uploaded ⟨"k", [], [], "", none⟩)),
      ("b", Except.ok ("b", ProcResult.uploaded ⟨"l", [], [], "", none⟩)),
      ("c", Except.ok ("c", ProcResult.skipped)), ("d", Except.ok ("d", ProcResult.skipped)),
      ("e", Except.error ())]).1 ∧
    "e" ∉ (collect_results [("a", Except.ok ("a", ProcResult.uploaded ⟨"k", [], [], "", none⟩)),
      ("b", Except.ok ("b", ProcResult.uploaded ⟨"l", [], [], "", none⟩)),
      ("c", Except.ok ("c", ProcResult.skipped)), ("d", Except.ok ("d", ProcResult.skipped)),
      ("e", Except.error ())]).2.1 := by
  refine ⟨by decide, by decide, by decide, by decide, by decide, by decide⟩

/-- C6 amended: if exactly one of the N per-file tasks fails permanently,
the pass still processes the other N-1 files — the two counts of the final
summary (uploaded, skipped) together report the N-1 successful outcomes —
the single failure is logged exactly once by the per-file error handler
(it does not appear in the final summary counts, which have no failure
category), and `main` exits with the success status 0 (per-file failures
never escalate to process failure). -/
theorem partial_failure_isolated (outs : List (String × Except Unit (String × ProcResult)))
    (hone : failed_count outs = 1) :
    (sync_summary outs).1 + (sync_summary outs).2 = outs.length - 1 ∧
    (collect_results outs).2.2.length = 1 ∧
    main_exit_code SyncRunResult.completed = 0 := by
  obtain ⟨hsum, hfail⟩ := collect_lengths outs
  refine ⟨?_, by rw [hfail, hone], rfl⟩
  rw [hfail, hone] at hsum
  simp only [sync_summary]
  omega

theorem partial_failure_isolated_witness :
    failed_count [("a", Except.ok ("a", ProcResult.skipped)), ("b", Except.error ()),
      ("c", Except.ok ("c", ProcResult.uploaded ⟨"k", [], [], "", none⟩))] = 1 ∧
    (sync_summary [("a", Except.ok ("a", ProcResult.skipped)), ("b", Except.error ()),
      ("c", Except.ok ("c", ProcResult.uploaded ⟨"k", [], [], "", none⟩))]).1 +
    (sync_summary [("a", Except.ok ("a", ProcResult.skipped)), ("b", Except.error ()),
      ("c", Except.ok ("c", ProcResult.uploaded ⟨"k", [], [], "", none⟩))]).2 = 2 ∧
    (collect_results [("a", Except.ok ("a", ProcResult.skipped)), ("b", Except.error ()),
      ("c", Except.ok ("c", ProcResult.uploaded ⟨"k", [], [], "", none⟩))]).2.2.length = 1 :=
  ⟨by decide,
   (partial_failure_isolated _ (by decide)).1,
   (partial_failure_isolated _ (by decide)).2.1⟩

end RearcSync
